import Mathlib

/- Shallow embedding of the ARIA role locator modules of the repository:
   utils/aria_locators.py (role-resolution engine, DOM fallback, accessible
   name resolver, accessibility-tree backend) and utils/bidi_locators.py
   (standard-protocol client with its CDP bridge). -/

/-- Python scalar values appearing in filter dictionaries and
accessibility-node properties. -/
inductive PyVal where
  | none
  | bool (b : Bool)
  | str (s : String)
  | int (n : Int)
deriving DecidableEq, Repr

/-- Python equality on the embedded values: booleans compare numerically
with integers, strings compare exactly, None equals only itself. -/
def pyEq : PyVal → PyVal → Bool
  | PyVal.none, PyVal.none => true
  | PyVal.bool a, PyVal.bool b => a == b
  | PyVal.str a, PyVal.str b => a == b
  | PyVal.int a, PyVal.int b => a == b
  | PyVal.bool a, PyVal.int b => (if a then (1 : Int) else 0) == b
  | PyVal.int a, PyVal.bool b => a == (if b then (1 : Int) else 0)
  | _, _ => false

/-- A filter dictionary: insertion-ordered key/value pairs, as Python dicts. -/
abbrev Filters := List (String × PyVal)

/-- First-match association-list lookup, the behavior of `dict.get`. -/
def lookupAssoc {α : Type} : List (String × α) → String → Option α
  | [], _ => Option.none
  | kv :: rest, k => if kv.1 == k then some kv.2 else lookupAssoc rest k

/-- Python `d[k] = v`: replace in place when the key exists, else append. -/
def dictSet (d : Filters) (k : String) (v : PyVal) : Filters :=
  if d.any (fun kv => kv.1 == k) then
    d.map (fun kv => if kv.1 == k then (k, v) else kv)
  else d ++ [(k, v)]

/-- A DOM element as the locator observes it: its attributes (absent
attribute = `get_attribute` returns None) and its rendered text. -/
structure DomElement where
  attrs : List (String × String)
  text : String
deriving DecidableEq, Repr

/-- `element.get_attribute(k)`. -/
def getAttr (el : DomElement) (k : String) : Option String :=
  lookupAssoc el.attrs k

/-- The DOM queries the name resolver issues against the page:
lookup by id, lookup of a `label[for=...]` element, and the nearest
ancestor `label` of an element.  `Option.none` models the
`NoSuchElementException` branch of `driver.find_element`. -/
structure Page where
  byId : String → Option DomElement
  labelFor : String → Option DomElement
  ancestorLabel : DomElement → Option DomElement

/-- Python `str.strip()`: drop leading and trailing whitespace. -/
def pyStrip (s : String) : String :=
  ⟨((s.data.dropWhile Char.isWhitespace).reverse.dropWhile
      Char.isWhitespace).reverse⟩

/- `ARIARoleLocator._get_accessible_name` (utils/aria_locators.py) is a
chain of early returns; it is embedded as one definition per numbered
source block, each block falling through to the next. -/

/-- Resolver step 7: the `title` attribute, the function's last source
before `return None`. -/
def gan_step7 (el : DomElement) : Option String :=
  match getAttr el "title" with
  | some s => if s.isEmpty then Option.none else some (pyStrip s)
  | Option.none => Option.none

/-- Resolver step 6: the `placeholder` attribute, textbox role only. -/
def gan_step6 (el : DomElement) (role : String) : Option String :=
  if role = "textbox" then
    match getAttr el "placeholder" with
    | some s => if s.isEmpty then gan_step7 el else some (pyStrip s)
    | Option.none => gan_step7 el
  else gan_step7 el

/-- Resolver step 5: the nearest ancestor `label` element. -/
def gan_step5 (pg : Page) (el : DomElement) (role : String) : Option String :=
  match pg.ancestorLabel el with
  | some lbl => some (pyStrip lbl.text)
  | Option.none => gan_step6 el role

/-- Resolver step 4: a `label[for=id]` element targeting this element. -/
def gan_step4 (pg : Page) (el : DomElement) (role : String) : Option String :=
  match getAttr el "id" with
  | some i =>
      if i.isEmpty then gan_step5 pg el role
      else
        match pg.labelFor i with
        | some lbl => some (pyStrip lbl.text)
        | Option.none => gan_step5 pg el role
  | Option.none => gan_step5 pg el role

/-- Resolver step 3: own text for buttons and links, when non-empty. -/
def gan_step3 (pg : Page) (el : DomElement) (role : String) : Option String :=
  if role = "button" ∨ role = "link" then
    if (pyStrip el.text).isEmpty then gan_step4 pg el role else some (pyStrip el.text)
  else gan_step4 pg el role

/-- Resolver step 2: the element referenced by `aria-labelledby`. -/
def gan_step2 (pg : Page) (el : DomElement) (role : String) : Option String :=
  match getAttr el "aria-labelledby" with
  | some s =>
      if s.isEmpty then gan_step3 pg el role
      else
        match pg.byId s with
        | some lbl => some (pyStrip lbl.text)
        | Option.none => gan_step3 pg el role
  | Option.none => gan_step3 pg el role

/-- `ARIARoleLocator._get_accessible_name` (utils/aria_locators.py):
step 1 is the `aria-label` attribute, then the chain above. -/
def get_accessible_name (pg : Page) (el : DomElement) (role : String) :
    Option String :=
  match getAttr el "aria-label" with
  | some s => if s.isEmpty then gan_step2 pg el role else some (pyStrip s)
  | Option.none => gan_step2 pg el role

/-- `ARIARoleLocator.ROLE_SELECTORS` (utils/aria_locators.py). -/
def ROLE_SELECTORS : List (String × String) :=
  [("textbox", "input[type=\"text\"], input[type=\"password\"], input[type=\"email\"], input[type=\"search\"], input:not([type]), textarea"),
   ("button", "button, input[type=\"button\"], input[type=\"submit\"], input[type=\"reset\"], [role=\"button\"]"),
   ("checkbox", "input[type=\"checkbox\"], [role=\"checkbox\"]"),
   ("radio", "input[type=\"radio\"], [role=\"radio\"]"),
   ("link", "a[href], [role=\"link\"]"),
   ("heading", "h1, h2, h3, h4, h5, h6, [role=\"heading\"]"),
   ("listitem", "li, [role=\"listitem\"]"),
   ("list", "ul, ol, [role=\"list\"]")]

/-- `ARIARoleLocator.ROLE_MAPPINGS` (utils/aria_locators.py). -/
def ROLE_MAPPINGS : List (String × List String) :=
  [("textbox", ["textbox", "combobox", "searchbox"]),
   ("button", ["button"]),
   ("checkbox", ["checkbox"]),
   ("radio", ["radio"]),
   ("link", ["link"]),
   ("heading", ["heading"]),
   ("listitem", ["listitem"]),
   ("list", ["list"])]

/-- The value strings of the `ARIARole` enumeration (utils/aria_locators.py). -/
def ariaRoleValues : List String :=
  ["textbox", "button", "checkbox", "radio", "link", "heading",
   "listitem", "list", "combobox", "searchbox"]

/-- The accessible name as a Python value, for the `!=` comparison in
`_element_matches_filters`: `None` when absent, the string otherwise. -/
def pyOfName (o : Option String) : PyVal :=
  match o with
  | some s => PyVal.str s
  | Option.none => PyVal.none

/-- `ARIARoleLocator._element_matches_filters` (utils/aria_locators.py):
only the `name` key is compared, every other key passes. -/
def element_matches_filters (pg : Page) (el : DomElement) (role : String)
    (filters : Filters) : Bool :=
  filters.all (fun kv =>
    if kv.1 == "name" then pyEq (pyOfName (get_accessible_name pg el role)) kv.2
    else true)

/-- The DOM side of the page as the fallback locator sees it: the name
resolution context plus `driver.find_elements(By.CSS_SELECTOR, sel)`. -/
structure DomPage where
  page : Page
  queryAll : String → List DomElement

/-- `ARIARoleLocator._filter_by_accessible_name` (utils/aria_locators.py). -/
def filter_by_accessible_name (dp : DomPage) (elements : List DomElement)
    (role : String) (filters : Filters) : List DomElement :=
  if filters.isEmpty then elements
  else elements.filter (fun el => element_matches_filters dp.page el role filters)

/-- `ARIARoleLocator._find_via_dom` (utils/aria_locators.py): the selector
table lookup (`if not selector` catches both a missing key and an empty
string) followed by the DOM query and the name filter. -/
def find_via_dom (dp : DomPage) (role : String) (filters : Filters) :
    List DomElement :=
  match lookupAssoc ROLE_SELECTORS role with
  | Option.none => []
  | some sel =>
      if sel.isEmpty then []
      else filter_by_accessible_name dp (dp.queryAll sel) role filters

/-- The value slot of an accessibility-tree node entry: either a plain
value or a `{...}` dictionary envelope. -/
inductive AXVal where
  | prim (v : PyVal)
  | dict (entries : List (String × PyVal))
deriving DecidableEq, Repr

/-- One entry of a CDP accessibility node's `properties` list:
`prop.get("name")` and `prop.get("value")`. -/
structure AXProperty where
  name : Option String
  value : AXVal
deriving DecidableEq, Repr

/-- A node of the flat CDP accessibility tree, with the fields the
locator reads: `role`, `properties`, `backendDOMNodeId`. -/
structure AXNode where
  role : Option AXVal
  properties : List AXProperty
  backendDOMNodeId : Option Nat
deriving DecidableEq, Repr

/-- `ARIARoleLocator._get_node_property` (utils/aria_locators.py): first
property of that name; a `{value: ...}` envelope is unwrapped via its
`value` entry, a missing key or property yields Python None. -/
def get_node_property (node : AXNode) (property_name : String) : PyVal :=
  match node.properties.find? (fun p => p.name == some property_name) with
  | some p =>
      match p.value with
      | AXVal.prim v => v
      | AXVal.dict entries => (lookupAssoc entries "value").getD PyVal.none
  | Option.none => PyVal.none

/-- `ARIARoleLocator._convert_to_bool` (utils/aria_locators.py). -/
def convert_to_bool (v : PyVal) : Bool :=
  match v with
  | PyVal.bool b => b
  | PyVal.str s => s.toLower == "true"
  | _ => false

/-- `ARIARoleLocator._node_has_role` (utils/aria_locators.py). -/
def node_has_role (node : AXNode) (target_roles : List String) : Bool :=
  let actual : PyVal :=
    match node.role with
    | some (AXVal.dict entries) => (lookupAssoc entries "value").getD PyVal.none
    | some (AXVal.prim v) => v
    | Option.none => PyVal.none
  target_roles.any (fun t => pyEq actual (PyVal.str t))

/-- `ARIARoleLocator._node_matches_filters` (utils/aria_locators.py):
every filter key must match; a boolean expected value coerces the
extracted property first. -/
def node_matches_filters (node : AXNode) (filters : Filters) : Bool :=
  filters.all (fun kv =>
    match kv.2 with
    | PyVal.bool b => convert_to_bool (get_node_property node kv.1) == b
    | expected => pyEq (get_node_property node kv.1) expected)

/-- The role equivalence set used by the tree backend:
`ROLE_MAPPINGS.get(target_role, [target_role])`. -/
def rolesFor (target_role : String) : List String :=
  (lookupAssoc ROLE_MAPPINGS target_role).getD [target_role]

/-- `ARIARoleLocator._process_tree_nodes` (utils/aria_locators.py).
`convert` stands for `_convert_node_to_element`, the driver-dependent
node-to-handle resolution, which yields none when every strategy fails. -/
def process_tree_nodes (nodes : List AXNode) (target_role : String)
    (filters : Filters) (convert : AXNode → Option DomElement) :
    List DomElement :=
  nodes.filterMap (fun node =>
    if node_has_role node (rolesFor target_role) &&
       node_matches_filters node filters then
      convert node
    else Option.none)

/-- Character-list prefix test. -/
def strPrefixB : List Char → List Char → Bool
  | [], _ => true
  | _ :: _, [] => false
  | c :: cs, d :: ds => c == d && strPrefixB cs ds

/-- Character-list infix test. -/
def strInfixB (needle : List Char) : List Char → Bool
  | [] => needle.isEmpty
  | d :: ds => strPrefixB needle (d :: ds) || strInfixB needle ds

/-- Substring test, the Python `needle in hay` on strings. -/
def strContainsSub (hay needle : String) : Bool :=
  strInfixB needle.data hay.data

/-- The string content of a CDP value slot; CDP delivers accessible
names as strings, anything else reads as empty. -/
def strOfVal (v : PyVal) : String :=
  match v with
  | PyVal.str s => s
  | _ => ""

/-- A node as seen by the standard-client CDP bridge: its `role` and
`name` sub-dictionaries (`node.get("role", {})`, `node.get("name", {})`). -/
structure BridgeNode where
  role : List (String × PyVal)
  name : List (String × PyVal)
deriving Repr

/-- `BiDiAccessibilityLocator._role_matches` (utils/bidi_locators.py). -/
def role_matches (node_role : List (String × PyVal)) (expected_role : String) :
    Bool :=
  pyEq ((lookupAssoc node_role "value").getD PyVal.none) (PyVal.str expected_role)
  || pyEq ((lookupAssoc node_role "type").getD PyVal.none) (PyVal.str expected_role)

/-- `BiDiAccessibilityLocator._name_matches` (utils/bidi_locators.py):
case-insensitive substring match. -/
def name_matches (node_name : List (String × PyVal)) (expected_name : String) :
    Bool :=
  let actual := (strOfVal ((lookupAssoc node_name "value").getD PyVal.none)).toLower
  strContainsSub actual expected_name.toLower

/-- `BiDiAccessibilityLocator._node_matches_criteria` (utils/bidi_locators.py):
only the `role` and `name` criteria entries are checked. -/
def node_matches_criteria (node : BridgeNode) (crit_role : Option String)
    (crit_name : Option String) : Bool :=
  (match crit_role with
   | some r => role_matches node.role r
   | Option.none => true)
  && (match crit_name with
      | some n => name_matches node.name n
      | Option.none => true)

/-- The `name` entry of `_build_accessibility_locator`
(utils/bidi_locators.py): added only when the name is truthy. -/
def build_locator_name (name : Option String) : Option String :=
  match name with
  | some s => if s.isEmpty then Option.none else some s
  | Option.none => Option.none

/-- The standard client's CDP-bridge result computation
(`_execute_bidi_via_cdp` + `_filter_accessibility_nodes` +
`_convert_nodes_to_elements`, utils/bidi_locators.py), given the fetched
tree nodes and the driver-dependent node conversion. -/
def bridge_find (nodes : List BridgeNode) (role : String)
    (name : Option String) (convert : BridgeNode → Option DomElement) :
    List DomElement :=
  (nodes.filter (fun n =>
      node_matches_criteria n (some role) (build_locator_name name))).filterMap
    convert

/-- `LocatorConfig` (utils/aria_locators.py).  The timeout and debug
fields only affect logging and timing, not the locator results, and are
not represented. -/
structure LocatorConfig where
  use_accessibility_tree : Bool
  fallback_to_dom : Bool
deriving DecidableEq, Repr

/-- The exception from the standard-client invocation as classified by
the engine: the binding/`TypeError` slip, the recoverable
`BiDiNotAvailableError` signal, or any other exception. -/
inductive BidiExc where
  | typeError
  | notAvailable
  | otherExc
deriving DecidableEq, Repr

/-- The per-call behavior of the engine's collaborators: what the
standard-client call body would produce once argument binding succeeds,
the outcome of enabling the CDP domains and fetching the accessibility
tree, the node-to-element resolution, and the DOM side of the page. -/
structure CallEnv where
  bidiBody : Except BidiExc (List DomElement)
  treeFetch : Except Unit (List AXNode)
  convert : AXNode → Option DomElement
  dom : DomPage

/-- The engine state that varies over an `ARIARoleLocator` instance's
lifetime: whether `self.bidi_locator` is still set, plus the immutable
configuration. -/
structure EngineState where
  bidiEnabled : Bool
  config : LocatorConfig
deriving DecidableEq, Repr

/-- The engine's invocation
`self.bidi_locator.find_elements(role_value, name, **filters)`
(utils/aria_locators.py): `name` is passed positionally while the merged
filter dict is splatted, so a `name` key in the dict makes Python
argument binding fail with TypeError before the body runs. -/
def bidiInvoke (env : CallEnv) (filters : Filters) :
    Except BidiExc (List DomElement) :=
  if filters.any (fun kv => kv.1 == "name") then Except.error BidiExc.typeError
  else env.bidiBody

/-- `ARIARoleLocator._find_via_accessibility_tree` (utils/aria_locators.py):
any failure enabling the domains or fetching the tree raises
`AccessibilityTreeError`; otherwise the nodes are processed purely. -/
def find_via_accessibility_tree (env : CallEnv) (role : String)
    (filters : Filters) : Except Unit (List DomElement) :=
  match env.treeFetch with
  | Except.error e => Except.error e
  | Except.ok nodes => Except.ok (process_tree_nodes nodes role filters env.convert)

/-- The exceptions `find_elements` / `find_element` can surface to the
caller (utils/aria_locators.py). -/
inductive EngineExc where
  | accessibilityTreeError
  | noSuchElement (msg : String)
deriving DecidableEq, Repr

/-- A call result: a value or a raised exception. -/
inductive Outcome (α : Type) where
  | ok (val : α)
  | exc (e : EngineExc)
deriving DecidableEq, Repr

/-- The name/filter merge of `find_elements`:
`if name is not None: filters["name"] = name`. -/
def mergeName (name : Option String) (filters : Filters) : Filters :=
  match name with
  | some n => dictSet filters "name" (PyVal.str n)
  | Option.none => filters

/-- Steps 2 and 3 of `ARIARoleLocator.find_elements`
(utils/aria_locators.py), reached when the standard client produced no
non-empty result: the tree backend guarded by `use_accessibility_tree`,
then the DOM fallback guarded by `fallback_to_dom`. -/
def afterBidi (st : EngineState) (env : CallEnv) (role : String)
    (filters : Filters) : Outcome (List DomElement) :=
  let domStep : Outcome (List DomElement) :=
    if st.config.fallback_to_dom then Outcome.ok (find_via_dom env.dom role filters)
    else Outcome.ok []
  if st.config.use_accessibility_tree then
    match find_via_accessibility_tree env role filters with
    | Except.ok els => if els.isEmpty then domStep else Outcome.ok els
    | Except.error _ =>
        if st.config.fallback_to_dom then domStep
        else Outcome.exc EngineExc.accessibilityTreeError
  else domStep

/-- `ARIARoleLocator.find_elements` (utils/aria_locators.py): the merge
of `name` into the filters, then the three-tier cascade.  Returns the
call outcome together with the instance state after the call
(`self.bidi_locator` is cleared on `BiDiNotAvailableError`). -/
def find_elements (st : EngineState) (env : CallEnv) (role : String)
    (name : Option String) (filters0 : Filters) :
    Outcome (List DomElement) × EngineState :=
  let filters := mergeName name filters0
  if st.bidiEnabled then
    match bidiInvoke env filters with
    | Except.ok els =>
        if els.isEmpty then (afterBidi st env role filters, st)
        else (Outcome.ok els, st)
    | Except.error BidiExc.notAvailable =>
        let st1 : EngineState := ⟨false, st.config⟩
        (afterBidi st1 env role filters, st1)
    | Except.error _ => (afterBidi st env role filters, st)
  else (afterBidi st env role filters, st)

/-- A single-quote character as a string, for the message formats. -/
def sqs : String := String.singleton (Char.ofNat 39)

/-- Python `str()` rendering of the embedded values, as used by the
f-string in `_describe_filters`. -/
def pyStrOf (v : PyVal) : String :=
  match v with
  | PyVal.str s => s
  | PyVal.bool true => "True"
  | PyVal.bool false => "False"
  | PyVal.int n => toString n
  | PyVal.none => "None"

/-- `ARIARoleLocator._describe_filters` (utils/aria_locators.py):
None-valued entries are dropped, the rest render as a comma-separated
`k='v'` list. -/
def describe_filters (filters : Filters) : String :=
  if filters.isEmpty then ""
  else
    let clean := filters.filter (fun kv => kv.2 != PyVal.none)
    if clean.isEmpty then ""
    else
      " with " ++
        String.intercalate ", "
          (clean.map (fun kv => kv.1 ++ "=" ++ sqs ++ pyStrOf kv.2 ++ sqs))

/-- The dict `find_element` builds for its error message:
`{"name": name, **filters} if name else filters`, where a None or empty
name fails the Python truthiness test. -/
def msgFilters (name : Option String) (filters0 : Filters) : Filters :=
  match name with
  | some n => if n.isEmpty then filters0 else ("name", PyVal.str n) :: filters0
  | Option.none => filters0

/-- The `NoSuchElementException` message of `find_element`. -/
def notFoundMsg (role : String) (name : Option String) (filters0 : Filters) :
    String :=
  "Can" ++ sqs ++ "t find " ++ role ++ " element" ++
    describe_filters (msgFilters name filters0)

/-- `ARIARoleLocator.find_element` (utils/aria_locators.py): first match
of `find_elements`, or `NoSuchElementException` when the list is empty. -/
def find_element (st : EngineState) (env : CallEnv) (role : String)
    (name : Option String) (filters0 : Filters) :
    Outcome DomElement × EngineState :=
  match find_elements st env role name filters0 with
  | (Outcome.ok [], st1) =>
      (Outcome.exc (EngineExc.noSuchElement (notFoundMsg role name filters0)), st1)
  | (Outcome.ok (e :: _), st1) => (Outcome.ok e, st1)
  | (Outcome.exc ex, st1) => (Outcome.exc ex, st1)

/-- One engine call, for iterating the state machine over a session. -/
structure CallSpec where
  env : CallEnv
  role : String
  name : Option String
  filters : Filters

/-- The engine state after a sequence of `find_elements` calls. -/
def runCalls (st : EngineState) (calls : List CallSpec) : EngineState :=
  calls.foldl (fun s c => (find_elements s c.env c.role c.name c.filters).2) st

/-- First present candidate of a precedence list. -/
def firstSome : List (Option String) → Option String
  | [] => Option.none
  | o :: rest =>
      match o with
      | some s => some s
      | Option.none => firstSome rest

/-- A candidate under the specification's step semantics: trimmed, and
empty-after-trim counts as absent. -/
def specTrimCand (raw : Option String) : Option String :=
  match raw with
  | some s => if (pyStrip s).isEmpty then Option.none else some (pyStrip s)
  | Option.none => Option.none

/-- The accessible-name resolver as the specification words it: the
8-step precedence, each step trimmed and skipped when empty after
trimming, with the textbox own-text last resort as step 8. -/
def specResolveName8 (pg : Page) (el : DomElement) (role : String) :
    Option String :=
  firstSome
    [specTrimCand (getAttr el "aria-label"),
     specTrimCand ((getAttr el "aria-labelledby").bind
       (fun i => (pg.byId i).map DomElement.text)),
     if role = "button" ∨ role = "link" then specTrimCand (some el.text)
     else Option.none,
     specTrimCand ((getAttr el "id").bind
       (fun i => (pg.labelFor i).map DomElement.text)),
     specTrimCand ((pg.ancestorLabel el).map DomElement.text),
     if role = "textbox" then specTrimCand (getAttr el "placeholder")
     else Option.none,
     specTrimCand (getAttr el "title"),
     if role = "textbox" then specTrimCand (some el.text) else Option.none]

/-- A candidate under the code's actual attribute semantics: fires when
the raw attribute is present and non-empty before trimming, and then
yields the trimmed value even when that is empty. -/
def attrCand (raw : Option String) : Option String :=
  match raw with
  | some s => if s.isEmpty then Option.none else some (pyStrip s)
  | Option.none => Option.none

/-- A candidate resolved through a referencing attribute: fires when the
attribute is non-empty and the referenced element is found, and then
yields that element's trimmed text unconditionally. -/
def labelRefCand (raw : Option String) (resolve : String → Option DomElement) :
    Option String :=
  match raw with
  | some s =>
      if s.isEmpty then Option.none
      else (resolve s).map (fun l => pyStrip l.text)
  | Option.none => Option.none

/-- The accessible-name resolver's actual 7-step precedence, stated as a
first-present-candidate scan (the amended form of the specification's
description). -/
def specResolveNameActual (pg : Page) (el : DomElement) (role : String) :
    Option String :=
  firstSome
    [attrCand (getAttr el "aria-label"),
     labelRefCand (getAttr el "aria-labelledby") pg.byId,
     if role = "button" ∨ role = "link" then
       (if (pyStrip el.text).isEmpty then Option.none else some (pyStrip el.text))
     else Option.none,
     labelRefCand (getAttr el "id") pg.labelFor,
     (pg.ancestorLabel el).map (fun l => pyStrip l.text),
     if role = "textbox" then attrCand (getAttr el "placeholder")
     else Option.none,
     attrCand (getAttr el "title")]

/-- The boolean coercion as the specification words it. -/
def specCoerce (v : PyVal) : Bool :=
  match v with
  | PyVal.bool b => b
  | PyVal.str s => s.toLower == "true"
  | _ => false

/-- One filter entry holding on a tree node, as the specification words
it: boolean expectations compare against the coerced extracted property,
other expectations compare with Python equality. -/
def specFilterOk (node : AXNode) (p : String × PyVal) : Prop :=
  match p.2 with
  | PyVal.bool b => specCoerce (get_node_property node p.1) = b
  | v => pyEq (get_node_property node p.1) v = true

/-- A call environment identical to `env` except for the standard-client
body outcome; two runs from a disabled state must agree on any two such
environments, which expresses that the client is no longer invoked. -/
def setBidiBody (env : CallEnv) (b : Except BidiExc (List DomElement)) :
    CallEnv :=
  ⟨b, env.treeFetch, env.convert, env.dom⟩

/-- A page with no id targets, no label elements and no label ancestors. -/
def pageEmpty : Page :=
  ⟨fun _ => Option.none, fun _ => Option.none, fun _ => Option.none⟩

/-- A DOM with no elements at all. -/
def domEmpty : DomPage := ⟨pageEmpty, fun _ => []⟩

/-- A bare element whose only name source is its rendered text. -/
def elTextboxText : DomElement := ⟨[], "hello"⟩

/-- An element with a whitespace-only aria-label and a placeholder. -/
def elWhitespaceLabel : DomElement :=
  ⟨[("aria-label", " "), ("placeholder", "P")], ""⟩

/-- An element with a padded aria-label. -/
def elAriaHi : DomElement := ⟨[("aria-label", " hi ")], ""⟩

/-- An element with an empty aria-label and a placeholder. -/
def elEmptyLabelP : DomElement :=
  ⟨[("aria-label", ""), ("placeholder", "P")], ""⟩

/-- A button element with visible text. -/
def elBtn : DomElement := ⟨[], "Mute"⟩

/-- A DOM whose every selector query returns the one button. -/
def domWithBtn : DomPage := ⟨pageEmpty, fun _ => [elBtn]⟩

/-- Engine state: standard client disabled, tree on, DOM fallback on. -/
def stTreeOnly : EngineState := ⟨false, ⟨true, true⟩⟩

/-- Engine state: standard client enabled, tree on, DOM fallback on. -/
def stOn : EngineState := ⟨true, ⟨true, true⟩⟩

/-- Engine state: everything but the DOM fallback disabled. -/
def stOffNoTree : EngineState := ⟨false, ⟨false, true⟩⟩

/-- Environment where the tree fetch fails and the DOM holds one button. -/
def envTreeFails : CallEnv :=
  ⟨Except.ok [], Except.error (), fun _ => Option.none, domWithBtn⟩

/-- Environment where the standard-client body raises the recoverable
not-available signal and everything else is empty. -/
def envNotAvail : CallEnv :=
  ⟨Except.error BidiExc.notAvailable, Except.ok [], fun _ => Option.none, domEmpty⟩

/-- Environment where every backend produces nothing. -/
def envEmpty : CallEnv :=
  ⟨Except.ok [], Except.ok [], fun _ => Option.none, domEmpty⟩

/-- Strengthening the guard of a guarded `filterMap` yields a sublist. -/
theorem filterMap_guard_sublist {α β : Type} (f : α → Option β) (p q : α → Bool)
    (h : ∀ a, q a = true → p a = true) (l : List α) :
    List.Sublist (l.filterMap fun a => if q a then f a else Option.none)
      (l.filterMap fun a => if p a then f a else Option.none) := by
  induction l with
  | nil => simp
  | cons a l ih =>
    simp only [List.filterMap_cons]
    cases hq : q a with
    | true =>
      rw [h a hq]
      simp only [if_true]
      cases f a with
      | none => exact ih
      | some b => exact ih.cons₂ b
    | false =>
      simp only [hq, if_false, Bool.false_eq_true]
      cases hp : p a with
      | true =>
        simp only [if_true]
        cases f a with
        | none => exact ih
        | some b => exact ih.cons b
      | false => simpa only [hp, if_false, Bool.false_eq_true] using ih

/-- A `filter` followed by `filterMap` is a guarded `filterMap`. -/
theorem filter_filterMap_guard {α β : Type} (f : α → Option β) (q : α → Bool)
    (l : List α) :
    (l.filter q).filterMap f = l.filterMap fun a => if q a then f a else Option.none := by
  induction l with
  | nil => rfl
  | cons a l ih =>
    cases hq : q a <;>
      simp [List.filter_cons, hq, List.filterMap_cons, ih]

/-- After `dictSet d k v` the key `k` is present. -/
theorem dictSet_any_self (d : Filters) (k : String) (v : PyVal) :
    (dictSet d k v).any (fun kv => kv.1 == k) = true := by
  unfold dictSet
  by_cases h : d.any (fun kv => kv.1 == k) = true
  · rw [if_pos h]
    rw [List.any_eq_true] at h
    rcases h with ⟨kv, hmem, hk⟩
    rw [List.any_eq_true]
    refine ⟨(k, v), ?_, by simp⟩
    rw [List.mem_map]
    exact ⟨kv, hmem, by rw [if_pos hk]⟩
  · rw [if_neg h]
    simp

/-- A successful association lookup returns one of the stored values. -/
theorem lookupAssoc_mem {α : Type} (l : List (String × α)) (k : String) (v : α)
    (h : lookupAssoc l k = some v) : v ∈ l.map Prod.snd := by
  induction l with
  | nil => simp [lookupAssoc] at h
  | cons kv rest ih =>
    rw [lookupAssoc] at h
    by_cases hk : (kv.1 == k) = true
    · rw [if_pos hk] at h
      simp only [Option.some.injEq] at h
      simp [← h]
    · rw [if_neg hk] at h
      simp [ih h]

set_option maxRecDepth 4096 in
/-- Every selector stored in `ROLE_SELECTORS` is non-empty. -/
theorem roleSelectors_nonempty (role s : String)
    (h : lookupAssoc ROLE_SELECTORS role = some s) : s.isEmpty = false := by
  have hm := lookupAssoc_mem _ _ _ h
  simp only [ROLE_SELECTORS, List.map_cons, List.map_nil, List.mem_cons,
    List.not_mem_nil, or_false] at hm
  rcases hm with rfl | rfl | rfl | rfl | rfl | rfl | rfl | rfl <;> rfl

/-- The code's boolean coercion is the specification's coercion. -/
theorem convert_to_bool_eq_specCoerce : convert_to_bool = specCoerce := rfl

/-- `_node_matches_filters` holds exactly when every filter entry holds
in the specification's sense. -/
theorem node_matches_iff (node : AXNode) (filters : Filters) :
    node_matches_filters node filters = true ↔ ∀ p ∈ filters, specFilterOk node p := by
  unfold node_matches_filters
  rw [List.all_eq_true]
  have hpt : ∀ p : String × PyVal,
      ((match p.2 with
        | PyVal.bool b => convert_to_bool (get_node_property node p.1) == b
        | expected => pyEq (get_node_property node p.1) expected) = true) ↔
        specFilterOk node p := by
    intro p
    rcases p with ⟨k, v⟩
    cases v <;>
      simp [specFilterOk, convert_to_bool_eq_specCoerce]
  constructor
  · intro h p hp
    exact (hpt p).mp (h p hp)
  · intro h p hp
    exact (hpt p).mpr (h p hp)

/-- With the standard client disabled, a call goes straight to the
tree/DOM steps and leaves the state untouched. -/
theorem find_elements_disabled (st : EngineState) (env : CallEnv) (role : String)
    (name : Option String) (f0 : Filters) (h : st.bidiEnabled = false) :
    find_elements st env role name f0 =
      (afterBidi st env role (mergeName name f0), st) := by
  unfold find_elements
  rw [h]
  rfl

/-- A disabled standard client stays disabled over any call sequence. -/
theorem runCalls_disabled (calls : List CallSpec) :
    ∀ st : EngineState, st.bidiEnabled = false →
      (runCalls st calls).bidiEnabled = false := by
  induction calls with
  | nil => intro st h; exact h
  | cons c rest ih =>
    intro st h
    have hstep := find_elements_disabled st c.env c.role c.name c.filters h
    simp only [runCalls, List.foldl_cons] at *
    rw [hstep]
    exact ih st h

/-- Resolver step 7 as a candidate scan. -/
theorem gan7_eq (el : DomElement) :
    gan_step7 el = firstSome [attrCand (getAttr el "title")] := by
  unfold gan_step7
  cases h : getAttr el "title" with
  | none => simp [firstSome, attrCand]
  | some s => cases hs : s.isEmpty <;> simp [firstSome, attrCand, hs]

/-- Resolver steps 6-7 as a candidate scan. -/
theorem gan6_eq (el : DomElement) (role : String) :
    gan_step6 el role = firstSome
      [if role = "textbox" then attrCand (getAttr el "placeholder") else Option.none,
       attrCand (getAttr el "title")] := by
  unfold gan_step6
  by_cases hr : role = "textbox"
  · simp only [if_pos hr]
    cases h : getAttr el "placeholder" with
    | none => simp [firstSome, attrCand, gan7_eq el]
    | some s => cases hs : s.isEmpty <;> simp [firstSome, attrCand, hs, gan7_eq el]
  · simp [hr, firstSome, gan7_eq el]

/-- Resolver steps 5-7 as a candidate scan. -/
theorem gan5_eq (pg : Page) (el : DomElement) (role : String) :
    gan_step5 pg el role = firstSome
      [(pg.ancestorLabel el).map (fun l => pyStrip l.text),
       if role = "textbox" then attrCand (getAttr el "placeholder") else Option.none,
       attrCand (getAttr el "title")] := by
  unfold gan_step5
  cases h : pg.ancestorLabel el with
  | none => simp [firstSome, gan6_eq el role]
  | some lbl => simp [firstSome]

/-- Resolver steps 4-7 as a candidate scan. -/
theorem gan4_eq (pg : Page) (el : DomElement) (role : String) :
    gan_step4 pg el role = firstSome
      [labelRefCand (getAttr el "id") pg.labelFor,
       (pg.ancestorLabel el).map (fun l => pyStrip l.text),
       if role = "textbox" then attrCand (getAttr el "placeholder") else Option.none,
       attrCand (getAttr el "title")] := by
  unfold gan_step4
  cases h : getAttr el "id" with
  | none => simp [firstSome, labelRefCand, gan5_eq pg el role]
  | some i =>
    cases hi : i.isEmpty
    · cases hl : pg.labelFor i <;>
        simp [firstSome, labelRefCand, hi, hl, gan5_eq pg el role]
    · simp [firstSome, labelRefCand, hi, gan5_eq pg el role]

/-- Resolver steps 3-7 as a candidate scan. -/
theorem gan3_eq (pg : Page) (el : DomElement) (role : String) :
    gan_step3 pg el role = firstSome
      [if role = "button" ∨ role = "link" then
         (if (pyStrip el.text).isEmpty then Option.none else some (pyStrip el.text))
       else Option.none,
       labelRefCand (getAttr el "id") pg.labelFor,
       (pg.ancestorLabel el).map (fun l => pyStrip l.text),
       if role = "textbox" then attrCand (getAttr el "placeholder") else Option.none,
       attrCand (getAttr el "title")] := by
  unfold gan_step3
  by_cases hr : role = "button" ∨ role = "link"
  · cases ht : (pyStrip el.text).isEmpty <;> simp [firstSome, hr, ht, gan4_eq pg el role]
  · simp [firstSome, hr, gan4_eq pg el role]

/-- Resolver steps 2-7 as a candidate scan. -/
theorem gan2_eq (pg : Page) (el : DomElement) (role : String) :
    gan_step2 pg el role = firstSome
      [labelRefCand (getAttr el "aria-labelledby") pg.byId,
       if role = "button" ∨ role = "link" then
         (if (pyStrip el.text).isEmpty then Option.none else some (pyStrip el.text))
       else Option.none,
       labelRefCand (getAttr el "id") pg.labelFor,
       (pg.ancestorLabel el).map (fun l => pyStrip l.text),
       if role = "textbox" then attrCand (getAttr el "placeholder") else Option.none,
       attrCand (getAttr el "title")] := by
  unfold gan_step2
  cases h : getAttr el "aria-labelledby" with
  | none => simp [firstSome, labelRefCand, gan3_eq pg el role]
  | some s =>
    cases hs : s.isEmpty
    · cases hb : pg.byId s <;>
        simp [firstSome, labelRefCand, hs, hb, gan3_eq pg el role]
    · simp [firstSome, labelRefCand, hs, gan3_eq pg el role]

/-- The resolver computes exactly the seven-step candidate scan. -/
theorem gan_eq (pg : Page) (el : DomElement) (role : String) :
    get_accessible_name pg el role = specResolveNameActual pg el role := by
  unfold get_accessible_name specResolveNameActual
  cases h : getAttr el "aria-label" with
  | none => simp [firstSome, attrCand, gan2_eq pg el role]
  | some s => cases hs : s.isEmpty <;> simp [firstSome, attrCand, hs, gan2_eq pg el role]

/-- A candidate scan only ever returns trimmed candidates. -/
theorem firstSome_trim : ∀ l : List (Option String),
    (∀ o ∈ l, ∀ s, o = some s → ∃ t : String, s = pyStrip t) →
    ∀ s, firstSome l = some s → ∃ t : String, s = pyStrip t := by
  intro l
  induction l with
  | nil => intro _ s h; simp [firstSome] at h
  | cons o rest ih =>
    intro hl s h
    cases o with
    | some w =>
      simp only [firstSome] at h
      have hw : w = s := by simpa using h
      exact hl (some w) (by simp) s (by rw [hw])
    | none =>
      simp only [firstSome] at h
      exact ih (fun o' ho' => hl o' (List.mem_cons_of_mem _ ho')) s h

/-- Attribute candidates are trimmed. -/
theorem attrCand_trim (raw : Option String) (s : String)
    (h : attrCand raw = some s) : ∃ t : String, s = pyStrip t := by
  cases raw with
  | none => simp [attrCand] at h
  | some w =>
    by_cases hw : w.isEmpty
    · simp [attrCand, hw] at h
    · simp [attrCand, hw] at h
      exact ⟨w, h.symm⟩

/-- Label-reference candidates are trimmed. -/
theorem labelRefCand_trim (raw : Option String)
    (res : String → Option DomElement) (s : String)
    (h : labelRefCand raw res = some s) : ∃ t : String, s = pyStrip t := by
  cases raw with
  | none => simp [labelRefCand] at h
  | some w =>
    by_cases hw : w.isEmpty
    · simp [labelRefCand, hw] at h
    · cases hr : res w with
      | none => simp [labelRefCand, hw, hr] at h
      | some lbl =>
        simp [labelRefCand, hw, hr] at h
        exact ⟨lbl.text, h.symm⟩

/-- C3 counterexample: the claimed 8-step precedence fails on the code.
A bare textbox whose only name source is its own rendered text resolves
to absent under `_get_accessible_name`, while the specification's step 8
would resolve it to that text. -/
theorem resolver_no_step8_cex :
    get_accessible_name pageEmpty elTextboxText "textbox" = Option.none ∧
      specResolveName8 pageEmpty elTextboxText "textbox" = some "hello" := by
  constructor
  · decide
  · decide

/-- C3 (amended): the resolver applies exactly the seven-step precedence
scan `specResolveNameActual` — aria-label, aria-labelledby text,
button/link own text, label[for=id] text, ancestor label text, textbox
placeholder, title — with no textbox own-text last resort. -/
theorem resolver_seven_step_precedence (pg : Page) (el : DomElement)
    (role : String) :
    get_accessible_name pg el role = specResolveNameActual pg el role :=
  gan_eq pg el role

/-- C4 counterexample: a whitespace-only aria-label is truthy before
trimming, so the resolver terminates with the empty name instead of
continuing to the placeholder source. -/
theorem resolver_whitespace_label_cex :
    getAttr elWhitespaceLabel "aria-label" = some " " ∧
      getAttr elWhitespaceLabel "placeholder" = some "P" ∧
      get_accessible_name pageEmpty elWhitespaceLabel "textbox" = some "" := by
  refine ⟨rfl, rfl, ?_⟩
  decide

/-- C4 (amended): every string the resolver returns is trimmed of
leading and trailing whitespace, and a candidate source that yields
nothing — the source is not applicable to the role, its attribute is
absent or empty before trimming, its referenced element is not found, or
(for the own-text source) the text is empty after trimming — is skipped,
the search continuing with the next step of the chain and ending absent
after the last; but a non-empty (e.g. whitespace-only) aria-label
terminates the search with its trimmed value even when that is empty. -/
theorem resolver_trim_semantics (pg : Page) (el : DomElement) (role : String) :
    (∀ s, get_accessible_name pg el role = some s → ∃ t : String, s = pyStrip t) ∧
    ((getAttr el "aria-label" = Option.none ∨
        getAttr el "aria-label" = some "") →
       get_accessible_name pg el role = gan_step2 pg el role) ∧
    ((getAttr el "aria-labelledby" = Option.none ∨
        getAttr el "aria-labelledby" = some "" ∨
        (∃ s2, getAttr el "aria-labelledby" = some s2 ∧
          pg.byId s2 = Option.none)) →
       gan_step2 pg el role = gan_step3 pg el role) ∧
    ((¬(role = "button" ∨ role = "link") ∨
        (pyStrip el.text).isEmpty = true) →
       gan_step3 pg el role = gan_step4 pg el role) ∧
    ((getAttr el "id" = Option.none ∨ getAttr el "id" = some "" ∨
        (∃ i, getAttr el "id" = some i ∧ pg.labelFor i = Option.none)) →
       gan_step4 pg el role = gan_step5 pg el role) ∧
    (pg.ancestorLabel el = Option.none →
       gan_step5 pg el role = gan_step6 el role) ∧
    ((¬(role = "textbox") ∨ getAttr el "placeholder" = Option.none ∨
        getAttr el "placeholder" = some "") →
       gan_step6 el role = gan_step7 el) ∧
    ((getAttr el "title" = Option.none ∨ getAttr el "title" = some "") →
       gan_step7 el = Option.none) ∧
    (∀ w, getAttr el "aria-label" = some w → w.isEmpty = false →
       get_accessible_name pg el role = some (pyStrip w)) := by
  refine ⟨?_, ?_, ?_, ?_, ?_, ?_, ?_, ?_, ?_⟩
  · intro s h
    rw [gan_eq] at h
    unfold specResolveNameActual at h
    refine firstSome_trim _ ?_ s h
    intro o ho s' hs'
    simp only [List.mem_cons, List.not_mem_nil, or_false] at ho
    rcases ho with rfl | rfl | rfl | rfl | rfl | rfl | rfl
    · exact attrCand_trim _ _ hs'
    · exact labelRefCand_trim _ _ _ hs'
    · by_cases hr : role = "button" ∨ role = "link"
      · rw [if_pos hr] at hs'
        by_cases ht : (pyStrip el.text).isEmpty
        · rw [if_pos ht] at hs'; simp at hs'
        · rw [if_neg ht] at hs'
          exact ⟨el.text, by simpa using hs'.symm⟩
      · rw [if_neg hr] at hs'; simp at hs'
    · exact labelRefCand_trim _ _ _ hs'
    · cases hl : pg.ancestorLabel el with
      | none => rw [hl] at hs'; simp at hs'
      | some lbl =>
        rw [hl] at hs'
        simp at hs'
        exact ⟨lbl.text, by simpa using hs'.symm⟩
    · by_cases hr : role = "textbox"
      · rw [if_pos hr] at hs'; exact attrCand_trim _ _ hs'
      · rw [if_neg hr] at hs'; simp at hs'
    · exact attrCand_trim _ _ hs'
  · intro h
    have hemp : ("" : String).isEmpty = true := rfl
    unfold get_accessible_name
    rcases h with h | h
    · rw [h]
    · simp [h, hemp]
  · intro h
    have hemp : ("" : String).isEmpty = true := rfl
    unfold gan_step2
    rcases h with h | h | ⟨s2, hs2, hb⟩
    · rw [h]
    · simp [h, hemp]
    · by_cases he : s2.isEmpty = true
      · simp [hs2, he]
      · simp [hs2, he, hb]
  · intro h
    unfold gan_step3
    rcases h with h | h
    · rw [if_neg h]
    · by_cases hr : role = "button" ∨ role = "link"
      · rw [if_pos hr, if_pos h]
      · rw [if_neg hr]
  · intro h
    have hemp : ("" : String).isEmpty = true := rfl
    unfold gan_step4
    rcases h with h | h | ⟨i, hi, hl⟩
    · rw [h]
    · simp [h, hemp]
    · by_cases he : i.isEmpty = true
      · simp [hi, he]
      · simp [hi, he, hl]
  · intro h
    unfold gan_step5
    rw [h]
  · intro h
    have hemp : ("" : String).isEmpty = true := rfl
    unfold gan_step6
    rcases h with h | h | h
    · rw [if_neg h]
    · by_cases hr : role = "textbox"
      · simp [hr, h]
      · rw [if_neg hr]
    · by_cases hr : role = "textbox"
      · simp [hr, h, hemp]
      · rw [if_neg hr]
  · intro h
    have hemp : ("" : String).isEmpty = true := rfl
    unfold gan_step7
    rcases h with h | h
    · rw [h]
    · simp [h, hemp]
  · intro w hw hne
    unfold get_accessible_name
    rw [hw]
    simp [hne]

/-- C4 witness: an empty aria-label is skipped and the search continues
past the inapplicable and absent sources to the placeholder, which
resolves trimmed. -/
theorem resolver_trim_semantics_witness :
    get_accessible_name pageEmpty elEmptyLabelP "textbox" = some "P" := by
  have h := resolver_trim_semantics pageEmpty elEmptyLabelP "textbox"
  calc get_accessible_name pageEmpty elEmptyLabelP "textbox"
      = gan_step2 pageEmpty elEmptyLabelP "textbox" := h.2.1 (Or.inr rfl)
    _ = gan_step3 pageEmpty elEmptyLabelP "textbox" := h.2.2.1 (Or.inl rfl)
    _ = gan_step4 pageEmpty elEmptyLabelP "textbox" :=
        h.2.2.2.1 (Or.inl (by decide))
    _ = gan_step5 pageEmpty elEmptyLabelP "textbox" :=
        h.2.2.2.2.1 (Or.inl rfl)
    _ = gan_step6 elEmptyLabelP "textbox" := h.2.2.2.2.2.1 rfl
    _ = some "P" := rfl

/-- C5 counterexample: `combobox` is an enumerated role but has no entry
in the DOM-fallback selector table. -/
theorem role_tables_combobox_cex :
    "combobox" ∈ ariaRoleValues ∧
      lookupAssoc ROLE_SELECTORS "combobox" = Option.none := by
  exact ⟨by decide, rfl⟩

set_option maxRecDepth 8192 in
/-- C5 (amended): every enumerated role except `combobox` and
`searchbox` maps to a non-empty CSS selector and a non-empty
role-equivalence list; `combobox` and `searchbox` are absent from both
tables. -/
theorem role_tables_partial_invariant :
    (ariaRoleValues.all (fun r =>
       (r == "combobox") || (r == "searchbox") ||
       ((match lookupAssoc ROLE_SELECTORS r with
         | some s => !s.isEmpty
         | Option.none => false) &&
        (match lookupAssoc ROLE_MAPPINGS r with
         | some l => !l.isEmpty
         | Option.none => false)))) = true ∧
    lookupAssoc ROLE_SELECTORS "searchbox" = Option.none ∧
    lookupAssoc ROLE_MAPPINGS "combobox" = Option.none ∧
    lookupAssoc ROLE_MAPPINGS "searchbox" = Option.none := by
  refine ⟨by decide, rfl, rfl, rfl⟩

/-- `pyEq` against an accessible-name value is propositional equality. -/
theorem pyEq_pyOfName_iff (o : Option String) (v : PyVal) :
    pyEq (pyOfName o) v = true ↔ pyOfName o = v := by
  cases o <;> cases v <;> simp [pyOfName, pyEq]

/-- `_element_matches_filters` holds exactly when every `name` entry of
the filter set equals the resolved accessible name. -/
theorem element_matches_iff (pg : Page) (el : DomElement) (role : String)
    (filters : Filters) :
    element_matches_filters pg el role filters = true ↔
      ∀ p ∈ filters, p.1 = "name" →
        pyOfName (get_accessible_name pg el role) = p.2 := by
  unfold element_matches_filters
  rw [List.all_eq_true]
  constructor
  · intro h p hp hname
    have hb := h p hp
    rw [if_pos (by simp [hname])] at hb
    exact (pyEq_pyOfName_iff _ _).mp hb
  · intro h p hp
    by_cases hname : p.1 = "name"
    · rw [if_pos (by simp [hname])]
      exact (pyEq_pyOfName_iff _ _).mpr (h p hp hname)
    · rw [if_neg (by simp [hname])]

/-- C6: in the DOM fallback locator, a role with no CSS-selector mapping
yields an empty list without raising; and with a non-empty filter set an
element is kept exactly when every `name` entry equals its resolved
accessible name (string-exact), all other filter keys being ignored. -/
theorem dom_fallback_filter_semantics (dp : DomPage) (role : String)
    (filters : Filters) (el : DomElement) :
    (lookupAssoc ROLE_SELECTORS role = Option.none →
       find_via_dom dp role filters = []) ∧
    (filters ≠ [] →
       (el ∈ find_via_dom dp role filters ↔
         ∃ sel, lookupAssoc ROLE_SELECTORS role = some sel ∧
           el ∈ dp.queryAll sel ∧
           ∀ p ∈ filters, p.1 = "name" →
             pyOfName (get_accessible_name dp.page el role) = p.2)) := by
  constructor
  · intro h
    unfold find_via_dom
    rw [h]
  · intro hne
    have hfe : filters.isEmpty = false := by
      cases filters with
      | nil => exact absurd rfl hne
      | cons p ps => rfl
    cases hsel : lookupAssoc ROLE_SELECTORS role with
    | none => simp [find_via_dom, hsel]
    | some sel =>
      have hnonempty := roleSelectors_nonempty role sel hsel
      simp only [find_via_dom, hsel, hnonempty, Bool.false_eq_true, if_false,
        filter_by_accessible_name, hfe, List.mem_filter, Option.some.injEq]
      rw [element_matches_iff]
      constructor
      · rintro ⟨hmem, hmatch⟩
        exact ⟨sel, rfl, hmem, hmatch⟩
      · rintro ⟨sel', hsel', hmem, hmatch⟩
        cases hsel'
        exact ⟨hmem, hmatch⟩

/-- C6 witness: an unmapped role with a non-trivial filter set returns
the empty list. -/
theorem dom_fallback_filter_semantics_witness :
    find_via_dom domEmpty "combobox" [("name", PyVal.str "y")] = [] :=
  (dom_fallback_filter_semantics domEmpty "combobox"
    [("name", PyVal.str "y")] elBtn).1 rfl

/-- C7: in the accessibility-tree backend an element is produced exactly
from a node of a matching role that satisfies every filter — boolean
expectations via envelope unwrapping and the specified string/boolean
coercion, exact equality after coercion — and that resolves to it. -/
theorem tree_filter_bool_coercion (nodes : List AXNode) (target : String)
    (filters : Filters) (conv : AXNode → Option DomElement) (el : DomElement) :
    el ∈ process_tree_nodes nodes target filters conv ↔
      ∃ node ∈ nodes, node_has_role node (rolesFor target) = true ∧
        (∀ p ∈ filters, specFilterOk node p) ∧ conv node = some el := by
  unfold process_tree_nodes
  rw [List.mem_filterMap]
  constructor
  · rintro ⟨node, hmem, hconv⟩
    by_cases hg : (node_has_role node (rolesFor target) &&
        node_matches_filters node filters) = true
    · rw [if_pos hg] at hconv
      rw [Bool.and_eq_true] at hg
      exact ⟨node, hmem, hg.1, (node_matches_iff node filters).mp hg.2, hconv⟩
    · rw [if_neg hg] at hconv
      cases hconv
  · rintro ⟨node, hmem, hrole, hfilt, hconv⟩
    refine ⟨node, hmem, ?_⟩
    rw [if_pos]
    · exact hconv
    · rw [Bool.and_eq_true]
      exact ⟨hrole, (node_matches_iff node filters).mpr hfilt⟩

/-- C8: for a fixed page state, a named query's results are a subset of
the unnamed query's results, in the tree backend, the DOM backend, and
the standard client's in-repository bridge computation. -/
theorem named_query_subset (nodes : List AXNode)
    (conv : AXNode → Option DomElement) (dp : DomPage)
    (bnodes : List BridgeNode) (bconv : BridgeNode → Option DomElement)
    (role X : String) :
    process_tree_nodes nodes role [("name", PyVal.str X)] conv ⊆
        process_tree_nodes nodes role [] conv ∧
      find_via_dom dp role [("name", PyVal.str X)] ⊆ find_via_dom dp role [] ∧
      bridge_find bnodes role (some X) bconv ⊆
        bridge_find bnodes role Option.none bconv := by
  refine ⟨?_, ?_, ?_⟩
  · unfold process_tree_nodes
    apply List.Sublist.subset
    apply filterMap_guard_sublist
    intro n h
    rw [Bool.and_eq_true] at h ⊢
    exact ⟨h.1, by simp [node_matches_filters]⟩
  · unfold find_via_dom
    split
    · exact fun a h => h
    · split
      · exact fun a h => h
      · unfold filter_by_accessible_name
        simp only [List.isEmpty_cons, List.isEmpty_nil, Bool.false_eq_true,
          if_false, if_true]
        exact (List.filter_sublist _).subset
  · unfold bridge_find
    rw [filter_filterMap_guard, filter_filterMap_guard]
    apply List.Sublist.subset
    apply filterMap_guard_sublist
    intro n h
    simp only [node_matches_criteria, build_locator_name] at h ⊢
    rw [Bool.and_eq_true] at h
    simp [h.1]

/-- `afterBidi` reads only the configuration part of the state. -/
theorem afterBidi_config (st1 st2 : EngineState) (h : st1.config = st2.config)
    (env : CallEnv) (role : String) (filters : Filters) :
    afterBidi st1 env role filters = afterBidi st2 env role filters := by
  unfold afterBidi
  rw [h]

/-- C1: for a call that reaches the tree backend and in which that
backend raises, the whole call raises `AccessibilityTreeError` when DOM
fallback is disabled, and otherwise returns exactly the DOM fallback
locator's result for the same role and merged filters. -/
theorem engine_tree_failure_fallback (st : EngineState) (env : CallEnv)
    (role : String) (name : Option String) (f0 : Filters)
    (htree : st.config.use_accessibility_tree = true)
    (hfail : env.treeFetch = Except.error ())
    (hnb : ∀ els, st.bidiEnabled = true →
      bidiInvoke env (mergeName name f0) = Except.ok els → els = []) :
    (st.config.fallback_to_dom = false →
       (find_elements st env role name f0).1 =
         Outcome.exc EngineExc.accessibilityTreeError) ∧
    (st.config.fallback_to_dom = true →
       (find_elements st env role name f0).1 =
         Outcome.ok (find_via_dom env.dom role (mergeName name f0))) := by
  have key : ∀ stX : EngineState, stX.config = st.config →
      afterBidi stX env role (mergeName name f0) =
        if st.config.fallback_to_dom = true then
          Outcome.ok (find_via_dom env.dom role (mergeName name f0))
        else Outcome.exc EngineExc.accessibilityTreeError := by
    intro stX hc
    unfold afterBidi find_via_accessibility_tree
    rw [hc, htree, hfail]
    by_cases hd : st.config.fallback_to_dom = true
    · simp [hd]
    · simp [hd]
  have fin : ∀ stX : EngineState, stX.config = st.config →
      (find_elements st env role name f0).1 =
        afterBidi stX env role (mergeName name f0) →
      ((st.config.fallback_to_dom = false →
          (find_elements st env role name f0).1 =
            Outcome.exc EngineExc.accessibilityTreeError) ∧
       (st.config.fallback_to_dom = true →
          (find_elements st env role name f0).1 =
            Outcome.ok (find_via_dom env.dom role (mergeName name f0)))) := by
    intro stX hc hred
    rw [hred, key stX hc]
    constructor
    · intro hd
      rw [if_neg (by simp [hd])]
    · intro hd
      rw [if_pos hd]
  cases hb : st.bidiEnabled with
  | false =>
    exact fin st rfl (by rw [find_elements_disabled st env role name f0 hb])
  | true =>
    cases hi : bidiInvoke env (mergeName name f0) with
    | ok els =>
      have hels : els = [] := hnb els hb hi
      subst hels
      exact fin st rfl (by simp [find_elements, hb, hi])
    | error e =>
      cases e with
      | notAvailable =>
        exact fin ⟨false, st.config⟩ rfl (by simp [find_elements, hb, hi])
      | typeError => exact fin st rfl (by simp [find_elements, hb, hi])
      | otherExc => exact fin st rfl (by simp [find_elements, hb, hi])

/-- C1 witness: standard client absent, tree failing, fallback enabled —
the call returns the DOM result. -/
theorem engine_tree_failure_fallback_witness :
    (find_elements stTreeOnly envTreeFails "button" Option.none []).1 =
      Outcome.ok [elBtn] :=
  (engine_tree_failure_fallback stTreeOnly envTreeFails "button" Option.none []
      rfl rfl (fun _ h _ => nomatch h)).2 rfl

/-- C2: the standard-client availability state per engine instance: a
`BiDiNotAvailableError` from the client permanently clears it, any other
exception leaves it enabled, the flag never turns back on, and once
cleared the client is no longer invoked — results are independent of its
behavior — for the rest of the instance's lifetime. -/
theorem bidi_availability_state_machine (st : EngineState) (env : CallEnv)
    (role : String) (name : Option String) (f0 : Filters) :
    (st.bidiEnabled = true →
       bidiInvoke env (mergeName name f0) = Except.error BidiExc.notAvailable →
       (find_elements st env role name f0).2 = ⟨false, st.config⟩) ∧
    (∀ ex, st.bidiEnabled = true → ex ≠ BidiExc.notAvailable →
       bidiInvoke env (mergeName name f0) = Except.error ex →
       (find_elements st env role name f0).2 = st) ∧
    ((find_elements st env role name f0).2.bidiEnabled = true →
       st.bidiEnabled = true) ∧
    (st.bidiEnabled = false → ∀ b,
       find_elements st (setBidiBody env b) role name f0 =
         find_elements st env role name f0) ∧
    (st.bidiEnabled = false → ∀ calls : List CallSpec,
       (runCalls st calls).bidiEnabled = false) := by
  refine ⟨?_, ?_, ?_, ?_, ?_⟩
  · intro hb hi
    simp [find_elements, hb, hi]
  · intro ex hb hex hi
    cases ex with
    | notAvailable => exact absurd rfl hex
    | typeError => simp [find_elements, hb, hi]
    | otherExc => simp [find_elements, hb, hi]
  · intro h
    by_cases hb : st.bidiEnabled = true
    · exact hb
    · rw [Bool.not_eq_true] at hb
      rw [find_elements_disabled st env role name f0 hb] at h
      exact h
  · intro hb b
    rw [find_elements_disabled st env role name f0 hb,
        find_elements_disabled st (setBidiBody env b) role name f0 hb]
    rfl
  · intro hb calls
    exact runCalls_disabled calls st hb

/-- C2 witness: the not-available signal clears the client. -/
theorem bidi_availability_state_machine_witness :
    (find_elements stOn envNotAvail "button" Option.none []).2 =
      (⟨false, ⟨true, true⟩⟩ : EngineState) :=
  (bidi_availability_state_machine stOn envNotAvail "button" Option.none []).1
    rfl rfl

/-- C9 (amended): `find_element` returns the first element of
`find_elements` when that list is non-empty, raises
`NoSuchElementException` exactly when it is empty — with the message
`notFoundMsg`, which names the role, every supplied filter whose value
is not None, and the name only when it is a non-empty string — and
propagates engine exceptions unchanged. -/
theorem find_element_first_or_raise (st : EngineState) (env : CallEnv)
    (role : String) (name : Option String) (f0 : Filters) :
    (∀ e es st1,
       find_elements st env role name f0 = (Outcome.ok (e :: es), st1) →
       find_element st env role name f0 = (Outcome.ok e, st1)) ∧
    (∀ st1, find_elements st env role name f0 = (Outcome.ok [], st1) →
       find_element st env role name f0 =
         (Outcome.exc (EngineExc.noSuchElement (notFoundMsg role name f0)),
          st1)) ∧
    (∀ ex st1, find_elements st env role name f0 = (Outcome.exc ex, st1) →
       find_element st env role name f0 = (Outcome.exc ex, st1)) := by
  refine ⟨?_, ?_, ?_⟩
  · intro e es st1 h
    unfold find_element
    rw [h]
  · intro st1 h
    unfold find_element
    rw [h]
  · intro ex st1 h
    unfold find_element
    rw [h]

/-- C9 witness: an empty page yields the not-found exception carrying
the formatted message. -/
theorem find_element_first_or_raise_witness :
    find_element stOffNoTree envEmpty "button" Option.none [] =
      (Outcome.exc (EngineExc.noSuchElement
        (notFoundMsg "button" Option.none [])), stOffNoTree) :=
  (find_element_first_or_raise stOffNoTree envEmpty "button"
      Option.none []).2.1 stOffNoTree rfl

/-- C9 counterexample: with a supplied empty-string name the failure
message omits the name filter entirely, though the claim requires all
supplied filters in the message. -/
theorem find_element_message_cex :
    (find_element stOffNoTree envEmpty "button" (some "") []).1 =
      Outcome.exc (EngineExc.noSuchElement
        ("Can" ++ sqs ++ "t find button element")) ∧
    strContainsSub ("Can" ++ sqs ++ "t find button element") "name" = false := by
  constructor
  · decide
  · decide

/-- C10: with a non-None name and an active standard client, the
engine's client invocation fails Python argument binding with TypeError
(`name` is passed both positionally and inside the splatted filters), so
the standard backend yields no result; the client stays enabled and the
call result equals the result with the client disabled. -/
theorem engine_bidi_name_type_error (st : EngineState) (env : CallEnv)
    (role : String) (s : String) (f0 : Filters)
    (hb : st.bidiEnabled = true) :
    bidiInvoke env (mergeName (some s) f0) = Except.error BidiExc.typeError ∧
    (find_elements st env role (some s) f0).2 = st ∧
    (find_elements st env role (some s) f0).1 =
      (find_elements (⟨false, st.config⟩ : EngineState) env role (some s)
        f0).1 := by
  have hc : (mergeName (some s) f0).any (fun kv => kv.1 == "name") = true := by
    unfold mergeName
    exact dictSet_any_self f0 "name" (PyVal.str s)
  have hty : bidiInvoke env (mergeName (some s) f0) =
      Except.error BidiExc.typeError := by
    unfold bidiInvoke
    rw [if_pos hc]
  refine ⟨hty, ?_, ?_⟩
  · simp [find_elements, hb, hty]
  · have hL : (find_elements st env role (some s) f0).1 =
        afterBidi st env role (mergeName (some s) f0) := by
      simp [find_elements, hb, hty]
    have hR : (find_elements (⟨false, st.config⟩ : EngineState) env role
        (some s) f0).1 =
        afterBidi ⟨false, st.config⟩ env role (mergeName (some s) f0) := by
      rw [find_elements_disabled _ env role (some s) f0 rfl]
    rw [hL, hR,
      afterBidi_config ⟨false, st.config⟩ st rfl env role
        (mergeName (some s) f0)]

/-- C10 witness: a named query with an active client. -/
theorem engine_bidi_name_type_error_witness :
    bidiInvoke envNotAvail (mergeName (some "x") []) =
        Except.error BidiExc.typeError ∧
      (find_elements stOn envNotAvail "button" (some "x") []).2 = stOn ∧
      (find_elements stOn envNotAvail "button" (some "x") []).1 =
        (find_elements (⟨false, ⟨true, true⟩⟩ : EngineState) envNotAvail
          "button" (some "x") []).1 :=
  engine_bidi_name_type_error stOn envNotAvail "button" "x" [] rfl
